import Mathlib

/-!
Verification of the SWIM image deletion tool (swim_delete_images.py).

The Python source is embedded shallowly:
  - Python strings become Lean `String`; truthiness of optional strings is
    `optTruthy` (a value is truthy iff it is present and non-empty).
  - Heterogeneous JSON-ish field values (golden flags, timestamps, usage
    counts) become the small `PyVal` type with Python truthiness.
  - Wall-clock time and timestamps become rationals; the two library
    parsers the source calls inside a try/except (`datetime.utcfromtimestamp`
    and `datetime.fromisoformat`) are oracle parameters `utc` and `iso`
    returning `Option`, since any exception there is caught and turns into
    an absent timestamp.
  - HTTP responses become `DResp`; a raised transport or JSON-decoding
    exception is the `raised` constructor, and code that does not catch it
    propagates it through the `Except String` monad.
-/

namespace SwimDel

/-- Lower-case a string character by character (embeds Python `str.lower`
for the ASCII data this tool handles). -/
def strLower (s : String) : String :=
  String.mk (s.toList.map Char.toLower)

/-- Substring containment on character lists: `subList n h` holds iff `n`
occurs contiguously inside `h` (embeds Python `n in h`). -/
def subList (n : List Char) : List Char → Bool
  | [] => n.isEmpty
  | c :: rest => List.isPrefixOf n (c :: rest) || subList n rest

/-- Python `needle in hay` on strings. -/
def pyIn (needle hay : String) : Bool :=
  subList needle.toList hay.toList

/-- Truthiness of an optional string: present and non-empty. This is how
the source tests `if args.family`, `if task_id`, `if not img_id`, etc. -/
def optTruthy : Option String → Bool
  | Option.some s => s ≠ ""
  | Option.none => false

/-- Python `a or b` where `a` is an optional string and `b` a string:
returns `a` when truthy, else `b`. -/
def pyOrS (a : Option String) (b : String) : String :=
  if optTruthy a then a.getD "" else b

/-- Python `a or b` on two optional strings, keeping the option. -/
def pyOrO (a b : Option String) : Option String :=
  if optTruthy a then a else b

/-- A JSON-ish Python value as it appears in inventory records. -/
inductive PyVal where
  | vnone
  | vbool (b : Bool)
  | vint (n : Int)
  | vstr (s : String)
deriving DecidableEq

/-- Python truthiness of a `PyVal`. -/
def PyVal.truthy : PyVal → Bool
  | .vnone => false
  | .vbool b => b
  | .vint n => n ≠ 0
  | .vstr s => s ≠ ""

/-- Python `a or b or ...` over a chain of values: the first truthy value,
or the last value of the chain when none is truthy. -/
def pyFirstTruthy : List PyVal → PyVal
  | [] => .vnone
  | [v] => v
  | v :: w :: rest => if v.truthy then v else pyFirstTruthy (w :: rest)

/-- Parse the digits of a decimal literal. -/
def digitsToNat : List Char → Option Nat
  | [] => Option.none
  | cs => cs.foldl (fun acc c =>
      match acc with
      | Option.none => Option.none
      | Option.some n => if c.isDigit then Option.some (n * 10 + (c.toNat - '0'.toNat)) else Option.none)
      (Option.some 0)

/-- Embeds Python `int(s)` on a string: optional sign and decimal digits,
failing (raising) on anything else. -/
def strToInt (s : String) : Option Int :=
  match s.trim.toList with
  | '-' :: rest => (digitsToNat rest).map (fun n => -(n : Int))
  | '+' :: rest => (digitsToNat rest).map (fun n => (n : Int))
  | cs => (digitsToNat cs).map (fun n => (n : Int))

/-- Embeds Python `int(v)` on a JSON-ish value; `Option.none` models the
raised `TypeError`/`ValueError` that the source catches. -/
def pyToInt : PyVal → Option Int
  | .vint n => Option.some n
  | .vbool b => Option.some (if b then 1 else 0)
  | .vstr s => strToInt s
  | .vnone => Option.none

/-- A raw inventory record, with every field the source ever reads.
`Option.none` models an absent key (`img.get(k)` returning `None`). -/
structure Img where
  family : Option String := Option.none
  familyName : Option String := Option.none
  name : Option String := Option.none
  imageName : Option String := Option.none
  version : Option String := Option.none
  softwareVersion : Option String := Option.none
  imageType : Option String := Option.none
  itype : Option String := Option.none
  isTaggedGolden : PyVal := .vnone
  isGolden : PyVal := .vnone
  golden : PyVal := .vnone
  createdTime : PyVal := .vnone
  importedDate : PyVal := .vnone
  lastUpdateTime : PyVal := .vnone
  imageUuid : Option String := Option.none
  idField : Option String := Option.none
  imageId : Option String := Option.none
  usedDevicesCount : PyVal := .vnone
  usingDeviceCount : PyVal := .vnone
  deviceCount : PyVal := .vnone
deriving DecidableEq

/-- `(img.get("family") or img.get("familyName") or "").lower()` -/
def famStr (img : Img) : String :=
  strLower (pyOrS img.family (pyOrS img.familyName ""))

/-- `(img.get("name") or img.get("imageName") or "").lower()` -/
def nameStr (img : Img) : String :=
  strLower (pyOrS img.name (pyOrS img.imageName ""))

/-- `(img.get("version") or img.get("softwareVersion") or "").lower()` -/
def verStr (img : Img) : String :=
  strLower (pyOrS img.version (pyOrS img.softwareVersion ""))

/-- `(img.get("imageType") or img.get("type") or "").lower()` -/
def typeStr (img : Img) : String :=
  strLower (pyOrS img.imageType (pyOrS img.itype ""))

/-- `bool(img.get("isTaggedGolden") or img.get("isGolden") or img.get("golden"))` -/
def isGoldenOf (img : Img) : Bool :=
  img.isTaggedGolden.truthy || img.isGolden.truthy || img.golden.truthy

/-- `img.get("createdTime") or img.get("importedDate") or img.get("lastUpdateTime")` -/
def createdValOf (img : Img) : PyVal :=
  pyFirstTruthy [img.createdTime, img.importedDate, img.lastUpdateTime]

/-- Embeds the timestamp parsing of `_match`: numeric values go through the
epoch-milliseconds heuristic and the `utc` oracle
(`datetime.utcfromtimestamp`), strings through the `iso` oracle
(`datetime.fromisoformat` after the trailing-Z replacement); a falsy value
is not parsed at all, and any oracle failure models the caught exception,
yielding an absent timestamp. -/
def parseCreated (utc : ℚ → Option ℚ) (iso : String → Option ℚ) (v : PyVal) : Option ℚ :=
  if v.truthy then
    match v with
    | .vint n => utc (if n > 10 ^ 10 then (n : ℚ) / 1000 else (n : ℚ))
    | .vbool b => utc (if b then 1 else 0)
    | .vstr s => iso s
    | .vnone => Option.none
  else Option.none

/-- The compiled filter configuration handed to `_match` in
`compile_filters` (regexes are already compiled to search predicates over
the lowered field strings; `golden` is the tri-state option). -/
structure FilterArgs where
  family : Option String := Option.none
  name_contains : Option String := Option.none
  nameRegex : Option (String → Bool) := Option.none
  version : Option String := Option.none
  versionRegex : Option (String → Bool) := Option.none
  itype : Option String := Option.none
  golden : Option Bool := Option.none
  older_than_days : Option Int := Option.none
  unused_only : Bool := false

/-- `args.family and args.family.lower() not in family` -/
def famReject (args : FilterArgs) (img : Img) : Bool :=
  optTruthy args.family && !(pyIn (strLower (args.family.getD "")) (famStr img))

/-- `args.name_contains and args.name_contains.lower() not in name` -/
def nameSubReject (args : FilterArgs) (img : Img) : Bool :=
  optTruthy args.name_contains && !(pyIn (strLower (args.name_contains.getD "")) (nameStr img))

/-- `name_regex and not name_regex.search(name)` -/
def nameRegexReject (args : FilterArgs) (img : Img) : Bool :=
  match args.nameRegex with
  | Option.some rx => !(rx (nameStr img))
  | Option.none => false

/-- `args.version and args.version.lower() != version` -/
def verReject (args : FilterArgs) (img : Img) : Bool :=
  optTruthy args.version && (strLower (args.version.getD "") ≠ verStr img)

/-- `v_regex and not v_regex.search(version)` -/
def verRegexReject (args : FilterArgs) (img : Img) : Bool :=
  match args.versionRegex with
  | Option.some rx => !(rx (verStr img))
  | Option.none => false

/-- `args.type and args.type.lower() not in image_type` -/
def typeReject (args : FilterArgs) (img : Img) : Bool :=
  optTruthy args.itype && !(pyIn (strLower (args.itype.getD "")) (typeStr img))

/-- `args.golden is not None and is_golden != args.golden` -/
def goldenReject (args : FilterArgs) (img : Img) : Bool :=
  match args.golden with
  | Option.some g => isGoldenOf img ≠ g
  | Option.none => false

/-- `older_than and created_dt and (now - created_dt) < older_than`, where
`older_than = timedelta(days=args.older_than_days) if args.older_than_days
else None` (so a zero or absent day count disables the check) and a day is
86400 seconds. -/
def ageReject (args : FilterArgs) (now : ℚ) (utc : ℚ → Option ℚ)
    (iso : String → Option ℚ) (img : Img) : Bool :=
  match args.older_than_days with
  | Option.some d =>
    if d ≠ 0 then
      match parseCreated utc iso (createdValOf img) with
      | Option.some t => decide (now - t < (d : ℚ) * 86400)
      | Option.none => false
    else false
  | Option.none => false

/-- `args.unused_only` and the used-count inference: the first truthy of
three count aliases defaulting to `0`, excluded when `int(used) > 0`
parses and holds, with any parse exception swallowed. -/
def usedReject (args : FilterArgs) (img : Img) : Bool :=
  if args.unused_only then
    match pyToInt (pyFirstTruthy
        [img.usedDevicesCount, img.usingDeviceCount, img.deviceCount, .vint 0]) with
    | Option.some n => decide (n > 0)
    | Option.none => false
  else false

/-- The `_match` closure returned by `compile_filters`: the sequence of
early-return rejection tests, in source order. -/
def matchImage (args : FilterArgs) (now : ℚ) (utc : ℚ → Option ℚ)
    (iso : String → Option ℚ) (img : Img) : Bool :=
  if famReject args img then false
  else if nameSubReject args img then false
  else if nameRegexReject args img then false
  else if verReject args img then false
  else if verRegexReject args img then false
  else if typeReject args img then false
  else if goldenReject args img then false
  else if ageReject args now utc iso img then false
  else if usedReject args img then false
  else true

/-- The nine per-field acceptance predicates of `_match`, as a list. -/
def predList (args : FilterArgs) (now : ℚ) (utc : ℚ → Option ℚ)
    (iso : String → Option ℚ) : List (Img → Bool) :=
  [fun img => !famReject args img,
   fun img => !nameSubReject args img,
   fun img => !nameRegexReject args img,
   fun img => !verReject args img,
   fun img => !verRegexReject args img,
   fun img => !typeReject args img,
   fun img => !goldenReject args img,
   fun img => !ageReject args now utc iso img,
   fun img => !usedReject args img]

theorem matchImage_eq_all (args : FilterArgs) (now : ℚ) (utc : ℚ → Option ℚ)
    (iso : String → Option ℚ) (img : Img) :
    matchImage args now utc iso img
      = (predList args now utc iso).all (fun p => p img) := by
  unfold matchImage predList
  simp only [List.all_cons, List.all_nil, Bool.and_true]
  cases famReject args img <;>
    cases nameSubReject args img <;>
    cases nameRegexReject args img <;>
    cases verReject args img <;>
    cases verRegexReject args img <;>
    cases typeReject args img <;>
    cases goldenReject args img <;>
    cases ageReject args now utc iso img <;>
    cases usedReject args img <;>
    rfl

/-- A presentation row, as built by `img_row` in `main`. -/
structure Row where
  imageUuid : Option String
  rname : Option String
  rversion : Option String
  rfamily : Option String
  rtype : Option String
  golden : Bool
  usedCount : PyVal
deriving DecidableEq

/-- `img_row` from `main`: resolves the id aliases with Python `or`,
carries the display fields, the combined golden flag and the used count. -/
def img_row (img : Img) : Row :=
  { imageUuid := pyOrO img.imageUuid (pyOrO img.idField img.imageId)
  , rname := pyOrO img.name img.imageName
  , rversion := pyOrO img.version img.softwareVersion
  , rfamily := pyOrO img.family img.familyName
  , rtype := pyOrO img.imageType img.itype
  , golden := isGoldenOf img
  , usedCount := pyFirstTruthy
      [img.usedDevicesCount, img.usingDeviceCount, img.deviceCount, .vint 0] }

/-- `selected = [img for img in images if match_fn(img)]` -/
def selectImgs (args : FilterArgs) (now : ℚ) (utc : ℚ → Option ℚ)
    (iso : String → Option ℚ) (images : List Img) : List Img :=
  images.filter (matchImage args now utc iso)

/-- `table = [img_row(i) for i in selected]` -/
def mkTable (args : FilterArgs) (now : ℚ) (utc : ℚ → Option ℚ)
    (iso : String → Option ℚ) (images : List Img) : List Row :=
  (selectImgs args now utc iso images).map img_row

/-- The observable behaviour of one HTTP delete call. `raised` is an
exception thrown by the transport itself; `resp` is a returned response
with status, JSON body (`Option.none` when `r.json()` would raise, else
the `taskId` the source extracts with
`(body.get("response") or \x7b\x7d).get("taskId")`) and raw text. -/
inductive DResp where
  | raised (e : String)
  | resp (status : Nat) (body : Option (Option String)) (text : String)
deriving DecidableEq

/-- Result of `delete_image`: success with the working path and optional
task id, or failure with the ordered `(path, status)` attempts and the
last response text. -/
inductive DeleteOutcome where
  | okD (taskId : Option String) (path : String)
  | failD (tried : List (String × Nat)) (lastText : String)
deriving DecidableEq

/-- The fallback loop inside `delete_image`: try each path in order,
recording `(path, status)`; a 200/202 response yields success with the
parsed `taskId` (a JSON decoding error raises), a 204 yields success with
no task, anything else moves to the next path; exhaustion yields the
failure record with the last response text. -/
def tryPaths (send : String → DResp) :
    List String → List (String × Nat) → String → Except String DeleteOutcome
  | [], tried, lastText => .ok (.failD tried lastText)
  | p :: ps, tried, _ =>
    match send p with
    | .raised e => .error e
    | .resp st body txt =>
      if st = 200 || st = 202 then
        match body with
        | Option.none => .error "JSONDecodeError"
        | Option.some tid => .ok (.okD tid p)
      else if st = 204 then .ok (.okD Option.none p)
      else tryPaths send ps (tried ++ [(p, st)]) txt

/-- The ordered candidate endpoint paths of `delete_image`. -/
def deletePaths (imageId : String) : List String :=
  ["/dna/intent/api/v1/image/importation/" ++ imageId,
   "/dna/intent/api/v1/image/" ++ imageId]

/-- `CatalystCenter.delete_image`. -/
def delete_image (send : String → DResp) (imageId : String) :
    Except String DeleteOutcome :=
  tryPaths send (deletePaths imageId) [] ""

/-- Number of delete calls the fallback loop issues against `paths`:
one per path until (and including) the first response that stops the
loop (success or raised exception). -/
def callCount (send : String → DResp) : List String → Nat
  | [] => 0
  | p :: ps =>
    match send p with
    | .raised _ => 1
    | .resp st _ _ =>
      if st = 200 || st = 202 || st = 204 then 1 else 1 + callCount send ps

/-- Status code of a returned response (0 for a raised exception). -/
def statusOf : DResp → Nat
  | .raised _ => 0
  | .resp st _ _ => st

/-- Raw text of a returned response. -/
def textOf : DResp → String
  | .raised _ => ""
  | .resp _ _ txt => txt

/-- A returned response whose status is none of the success codes. -/
def nonSuccessResp : DResp → Bool
  | .raised _ => false
  | .resp st _ _ => !(st = 200 || st = 202 || st = 204)

/-- The success payload of a response, when it is a success: `some tid?`
for 200/202 with a decodable body, `some none` for 204. -/
def respSuccessOut : DResp → Option (Option String)
  | .raised _ => Option.none
  | .resp st body _ =>
    if st = 200 || st = 202 then body
    else if st = 204 then Option.some Option.none
    else Option.none

/-- `CatalystCenter.remove_golden`: 200/202 decode the body and return its
`taskId`; 204 returns no task; every other status is only logged as a
warning and also returns no task. A raised transport or JSON error
propagates. -/
def remove_golden (r : DResp) : Except String (Option String) :=
  match r with
  | .raised e => .error e
  | .resp st body _ =>
    if st = 200 || st = 202 then
      match body with
      | Option.none => .error "JSONDecodeError"
      | Option.some tid => .ok tid
    else .ok Option.none

/-! ### Task poller (`CatalystCenter.get_task`) -/

/-- The parsed JSON of one task-status poll. `failureReason` and
`progress` use `""` for an absent or falsy field, matching the truthiness
tests of the source. -/
structure TaskData where
  progress : String
  isError : Bool
  failureReason : String
deriving DecidableEq

/-- One poll response: HTTP status, raw text, and the parsed task data
(consulted only when the status is 200). -/
structure PollResp where
  status : Nat
  text : String
  data : TaskData
deriving DecidableEq

/-- The `raw` diagnostic attached to a poller error: either the parsed
data or, for a non-200 poll, the raw response text. -/
inductive Raw where
  | fromData (d : TaskData)
  | fromText (t : String)
deriving DecidableEq

/-- Return value of `get_task`: the error dictionary or the ok
dictionary. -/
inductive TaskOut where
  | errT (msg : String) (raw : Raw)
  | okT (d : TaskData)
deriving DecidableEq

/-- The completion-keyword test:
`any(k in str(progress).lower() for k in ("completed","success","done","deletion"))`. -/
def keywordHit (progress : String) : Bool :=
  ["completed", "success", "done", "deletion"].any
    (fun k => pyIn k (strLower progress))

/-- Classification of one poll response, in source order: a non-200 poll
is an immediate error; then an error flag or non-empty failure reason is
an immediate error with the failure text (or the fixed fallback text);
then a truthy progress containing a completion keyword is success;
otherwise the task is still pending (`Option.none`). -/
def pollClassify (r : PollResp) : Option TaskOut :=
  if r.status ≠ 200 then
    Option.some (.errT ("task query failed " ++ toString r.status) (.fromText r.text))
  else if r.data.isError || r.data.failureReason ≠ "" then
    Option.some (.errT
      (if r.data.failureReason ≠ "" then r.data.failureReason else "task reported error")
      (.fromData r.data))
  else if r.data.progress ≠ "" && keywordHit r.data.progress then
    Option.some (.okT r.data)
  else Option.none

/-- The polling loop of `get_task`, instrumented with fuel. `resp i` is
the response to the i-th poll and `elapsed i` the value of
`time.time() - start` at the i-th timeout check; the check runs after
classifying each response and before the inter-poll sleep, exactly as in
the source. `Option.none` means the fuel ran out before the loop
returned. -/
def getTaskRun (resp : Nat → PollResp) (elapsed : Nat → ℚ) (timeout : ℚ) :
    Nat → Nat → Option TaskOut
  | 0, _ => Option.none
  | fuel + 1, i =>
    match pollClassify (resp i) with
    | Option.some v => Option.some v
    | Option.none =>
      if timeout < elapsed i then
        Option.some (.errT "task timeout" (.fromData (resp i).data))
      else getTaskRun resp elapsed timeout fuel (i + 1)

/-! ### Orchestrator (`main`, deletion loop) -/

/-- The golden-tag-removal scope parameters of the run
(`--site-id`, `--device-family-identifier`, `--device-role`). -/
structure GParams where
  siteId : Option String := Option.none
  famId : Option String := Option.none
  role : Option String := Option.none

/-- `args.site_id and args.device_family_identifier and args.device_role` -/
def gpAll (gp : GParams) : Bool :=
  optTruthy gp.siteId && optTruthy gp.famId && optTruthy gp.role

/-- What `main` observes of a `get_task` result: it only tests
`"error" in tr` and reads `tr["error"]`. -/
inductive TRes where
  | good
  | errR (msg : String)
deriving DecidableEq

/-- The per-run transport environment: the response to the golden-tag
removal call for an image id, the response to a delete call for a path,
and the poll outcome for a task id. -/
structure Env where
  rgResp : String → DResp
  delResp : String → DResp
  task : String → TRes

/-- Per-item outcome inside the loop: appended to `deleted` or to
`failures` with its error string. -/
inductive ItemRes where
  | okDel
  | failI (e : String)
deriving DecidableEq

/-- Rendering of the tried-paths list inside the failure message
`f"delete failed (paths tried {res.get('tried')}): ..."`. -/
def showTried (tried : List (String × Nat)) : String :=
  "[" ++ String.intercalate ", "
    (tried.map (fun pr => "(" ++ pr.1 ++ ", " ++ toString pr.2 ++ ")")) ++ "]"

/-- The delete-then-poll phase of one loop iteration: call
`delete_image`; on success with a truthy task id poll it, converting a
poll error into the `task failed:` failure; on exhaustion of all paths
build the `delete failed` failure. -/
def deletePhase (env : Env) (imgId : String) : Except String ItemRes := do
  let res ← delete_image env.delResp imgId
  match res with
  | .okD tid _ =>
    if optTruthy tid then
      match env.task (tid.getD "") with
      | .errR m => pure (.failI ("task failed: " ++ m))
      | .good => pure .okDel
    else pure .okDel
  | .failD tried lastText =>
    pure (.failI ("delete failed (paths tried " ++ showTried tried ++ "): " ++ lastText))

/-- One iteration of the deletion loop of `main`: a falsy image id is an
immediate `missing imageUuid` failure; a golden row with all three scope
parameters supplied first runs `remove_golden`, polling a truthy returned
task id and aborting the item with `remove_golden failed:` when the poll
errs; then the delete phase runs. Raised transport exceptions propagate
(nothing in the loop catches them). -/
def processItem (env : Env) (gp : GParams) (r : Row) : Except String ItemRes :=
  if optTruthy r.imageUuid = false then .ok (.failI "missing imageUuid")
  else
    let imgId := r.imageUuid.getD ""
    if r.golden && gpAll gp then
      match remove_golden (env.rgResp imgId) with
      | .error e => .error e
      | .ok tid =>
        if optTruthy tid then
          match env.task (tid.getD "") with
          | .errR m => .ok (.failI ("remove_golden failed: " ++ m))
          | .good => deletePhase env imgId
        else deletePhase env imgId
    else deletePhase env imgId

/-- Aggregated output of the deletion loop: the `deleted` rows, the
`failures` with their error strings, and (for bookkeeping) the rows the
loop iterated over, in order. -/
structure RunOut where
  deleted : List Row
  failures : List (Row × String)
  attempted : List Row
deriving DecidableEq

/-- The deletion loop body over a list of rows, propagating any raised
exception. -/
def runLoop (env : Env) (gp : GParams) : List Row → Except String RunOut
  | [] => .ok ⟨[], [], []⟩
  | r :: rest =>
    match processItem env gp r with
    | .error e => .error e
    | .ok res =>
      match runLoop env gp rest with
      | .error e => .error e
      | .ok tail =>
        match res with
        | .okDel => .ok ⟨r :: tail.deleted, tail.failures, r :: tail.attempted⟩
        | .failI e => .ok ⟨tail.deleted, (r, e) :: tail.failures, r :: tail.attempted⟩

/-- `limit = args.limit if args.limit and args.limit > 0 else len(table)` -/
def pyLimit (limitArg : Int) (tableLen : Nat) : Nat :=
  if 0 < limitArg then limitArg.toNat else tableLen

/-- The deletion loop of `main`: iterate `table[:limit]`. -/
def runDeletions (env : Env) (gp : GParams) (table : List Row) (limitArg : Int) :
    Except String RunOut :=
  runLoop env gp (table.take (pyLimit limitArg table.length))

/-! ### Helper lemmas for the deletion protocol -/

theorem tryPaths_head_success (send : String → DResp) (p : String) (rest : List String)
    (tried : List (String × Nat)) (txt : String) (tid : Option String)
    (hp : respSuccessOut (send p) = Option.some tid) :
    tryPaths send (p :: rest) tried txt = Except.ok (.okD tid p) := by
  cases hsp : send p with
  | raised e =>
    rw [hsp] at hp
    simp [respSuccessOut] at hp
  | resp st body t =>
    rw [hsp] at hp
    by_cases h2 : (st = 200 || st = 202) = true
    · have hb : body = Option.some tid := by simpa [respSuccessOut, h2] using hp
      simp [tryPaths, hsp, h2, hb]
    · by_cases h4 : st = 204
      · have ht : Option.some (Option.none : Option String) = Option.some tid := by
          simpa [respSuccessOut, h2, h4] using hp
        simp only [Option.some.injEq] at ht
        simp [tryPaths, hsp, h2, h4, ← ht]
      · exfalso
        simp [respSuccessOut, h2, h4] at hp

theorem tryPaths_success (send : String → DResp) (p : String) (tid : Option String) :
    ∀ (front rest : List String) (tried : List (String × Nat)) (txt : String),
    (∀ q ∈ front, nonSuccessResp (send q) = true) →
    respSuccessOut (send p) = Option.some tid →
    tryPaths send (front ++ p :: rest) tried txt = Except.ok (.okD tid p) := by
  intro front
  induction front with
  | nil =>
    intro rest tried txt _ hp
    simpa using tryPaths_head_success send p rest tried txt tid hp
  | cons q fr ih =>
    intro rest tried txt hf hp
    have hq : nonSuccessResp (send q) = true := hf q (by simp)
    cases hsq : send q with
    | raised e =>
      rw [hsq] at hq
      simp [nonSuccessResp] at hq
    | resp st body t =>
      rw [hsq] at hq
      simp only [nonSuccessResp, Bool.not_eq_true', Bool.or_eq_false_iff,
        decide_eq_false_iff_not] at hq
      show tryPaths send (q :: (fr ++ p :: rest)) tried txt = _
      rw [show tryPaths send (q :: (fr ++ p :: rest)) tried txt
          = tryPaths send (fr ++ p :: rest) (tried ++ [(q, st)]) t by
        simp [tryPaths, hsq, hq.1.1, hq.1.2, hq.2]]
      exact ih rest (tried ++ [(q, st)]) t (fun x hx => hf x (by simp [hx])) hp

theorem callCount_success (send : String → DResp) (p : String) :
    ∀ (front rest : List String),
    (∀ q ∈ front, nonSuccessResp (send q) = true) →
    (respSuccessOut (send p)).isSome = true →
    callCount send (front ++ p :: rest) = front.length + 1 := by
  intro front
  induction front with
  | nil =>
    intro rest _ hp
    cases hsp : send p with
    | raised e => rw [hsp] at hp; simp [respSuccessOut] at hp
    | resp st body t =>
      rw [hsp] at hp
      have hsucc : (st = 200 || st = 202 || st = 204) = true := by
        by_contra h
        simp only [Bool.or_eq_true, decide_eq_true_eq, not_or] at h
        obtain ⟨⟨h2a, h2b⟩, h4⟩ := h
        simp [respSuccessOut, h2a, h2b, h4] at hp
      simp [callCount, hsp, hsucc]
  | cons q fr ih =>
    intro rest hf hp
    have hq : nonSuccessResp (send q) = true := hf q (by simp)
    cases hsq : send q with
    | raised e => rw [hsq] at hq; simp [nonSuccessResp] at hq
    | resp st body t =>
      rw [hsq] at hq
      simp only [nonSuccessResp, Bool.not_eq_true', Bool.or_eq_false_iff,
        decide_eq_false_iff_not] at hq
      show callCount send (q :: (fr ++ p :: rest)) = fr.length + 1 + 1
      rw [show callCount send (q :: (fr ++ p :: rest))
          = 1 + callCount send (fr ++ p :: rest) by
        simp [callCount, hsq, hq.1.1, hq.1.2, hq.2]]
      rw [ih rest (fun x hx => hf x (by simp [hx])) hp]
      omega

theorem tryPaths_allFail (send : String → DResp) :
    ∀ (paths : List String) (tried : List (String × Nat)) (txt : String),
    (∀ q ∈ paths, nonSuccessResp (send q) = true) →
    tryPaths send paths tried txt
      = Except.ok (.failD (tried ++ paths.map (fun q => (q, statusOf (send q))))
          ((paths.map (fun q => textOf (send q))).getLastD txt)) := by
  intro paths
  induction paths with
  | nil => intro tried txt _; simp [tryPaths]
  | cons q ps ih =>
    intro tried txt hf
    have hq : nonSuccessResp (send q) = true := hf q (by simp)
    cases hsq : send q with
    | raised e => rw [hsq] at hq; simp [nonSuccessResp] at hq
    | resp st body t =>
      rw [hsq] at hq
      simp only [nonSuccessResp, Bool.not_eq_true', Bool.or_eq_false_iff,
        decide_eq_false_iff_not] at hq
      rw [show tryPaths send (q :: ps) tried txt
          = tryPaths send ps (tried ++ [(q, st)]) t by
        simp [tryPaths, hsq, hq.1.1, hq.1.2, hq.2]]
      rw [ih (tried ++ [(q, st)]) t (fun x hx => hf x (by simp [hx]))]
      simp only [hsq, List.map_cons, statusOf, textOf, List.getLastD_cons,
        List.append_assoc, List.singleton_append]

/-- C1: the deletion protocol short-circuits on first success. For any
ordered path list split as `front ++ p :: rest` where every path in
`front` gets a non-success response and `p` gets a success response
(200/202 with a decoded optional task id, or 204 with none), the protocol
returns success with path `p` and that task id, and issues exactly
`front.length + 1` calls — none to the paths after `p`. If every path
responds non-success, the outcome is the failure record carrying the full
ordered `(path, status)` attempt list. `delete_image` is this protocol
run on its two candidate paths. -/
theorem claim_C1 :
    (∀ (send : String → DResp) (front : List String) (p : String) (rest : List String)
        (tid : Option String),
      (∀ q ∈ front, nonSuccessResp (send q) = true) →
      respSuccessOut (send p) = Option.some tid →
      tryPaths send (front ++ p :: rest) [] ""
          = Except.ok (.okD tid p)
        ∧ callCount send (front ++ p :: rest) = front.length + 1)
    ∧ (∀ (send : String → DResp) (paths : List String),
      (∀ q ∈ paths, nonSuccessResp (send q) = true) →
      tryPaths send paths [] ""
        = Except.ok (.failD (paths.map (fun q => (q, statusOf (send q))))
            ((paths.map (fun q => textOf (send q))).getLastD "")))
    ∧ (∀ (send : String → DResp) (imageId : String),
      delete_image send imageId = tryPaths send (deletePaths imageId) [] "") := by
  refine ⟨fun send front p rest tid hf hp => ⟨?_, ?_⟩, fun send paths hf => ?_, fun _ _ => rfl⟩
  · exact tryPaths_success send p tid front rest [] "" hf hp
  · exact callCount_success send p front rest hf (by rw [hp]; rfl)
  · simpa using tryPaths_allFail send paths [] "" hf

/-- Concrete witness for C1: a transport that rejects the first candidate
path with 409 and accepts the second with 202 and task id `t1`; the
protocol succeeds on the second path with exactly two calls. A transport
rejecting both paths yields the failure record with both attempts. -/
theorem claim_C1_witness :
    (tryPaths
        (fun q => if q = "a" then DResp.resp 409 (Option.some Option.none) "conflict"
          else DResp.resp 202 (Option.some (Option.some "t1")) "ok")
        (["a"] ++ "b" :: []) [] ""
        = Except.ok (.okD (Option.some "t1") "b")
      ∧ callCount
        (fun q => if q = "a" then DResp.resp 409 (Option.some Option.none) "conflict"
          else DResp.resp 202 (Option.some (Option.some "t1")) "ok")
        (["a"] ++ "b" :: []) = 2)
    ∧ tryPaths (fun _ => DResp.resp 404 Option.none "nf") ["a", "b"] [] ""
        = Except.ok (.failD [("a", 404), ("b", 404)] "nf") := by
  constructor
  · exact claim_C1.1
      (fun q => if q = "a" then DResp.resp 409 (Option.some Option.none) "conflict"
        else DResp.resp 202 (Option.some (Option.some "t1")) "ok")
      ["a"] "b" [] (Option.some "t1") (by decide) (by decide)
  · have := claim_C1.2.1 (fun _ => DResp.resp 404 Option.none "nf") ["a", "b"] (by decide)
    simpa using this

/-! ### Helper lemmas for the task poller -/

theorem getTaskRun_reach (resp : Nat → PollResp) (elapsed : Nat → ℚ) (timeout : ℚ)
    (hnone : ∀ i, pollClassify (resp i) = Option.none) :
    ∀ (d i : Nat), (∀ j, i ≤ j → j < i + d → ¬ timeout < elapsed j) →
    timeout < elapsed (i + d) →
    getTaskRun resp elapsed timeout (d + 1) i
      = Option.some (.errT "task timeout" (.fromData (resp (i + d)).data)) := by
  intro d
  induction d with
  | zero =>
    intro i _ hex
    simp only [Nat.add_zero] at hex
    simp [getTaskRun, hnone i, hex]
  | succ d ih =>
    intro i hlt hex
    have h0 : ¬ timeout < elapsed i := hlt i le_rfl (by omega)
    rw [show getTaskRun resp elapsed timeout (d + 1 + 1) i
        = getTaskRun resp elapsed timeout (d + 1) (i + 1) by
      simp [getTaskRun, hnone i, h0]]
    have hres := ih (i + 1) (fun j hj1 hj2 => hlt j (by omega) (by omega))
      (by rw [show i + 1 + d = i + (d + 1) by omega]; exact hex)
    rw [hres, show i + 1 + d = i + (d + 1) by omega]

theorem elapsed_lower (elapsed : Nat → ℚ) (interval : ℚ)
    (hstep : ∀ i, elapsed i + interval ≤ elapsed (i + 1)) :
    ∀ i : Nat, elapsed 0 + i * interval ≤ elapsed i := by
  intro i
  induction i with
  | zero => simp
  | succ i ih =>
    have := hstep i
    push_cast
    nlinarith

/-- C2: the task poller terminates with `TimedOut`. For every response
stream in which no poll classifies as a terminal error or success, if the
elapsed time grows by at least a positive `interval` between consecutive
timeout checks, then the loop returns the `task timeout` error after
finitely many polls, attaching the data of the last poll seen; the poll it
stops at is exactly the first whose elapsed time strictly exceeds the
timeout (the check runs before each inter-poll wait). -/
theorem claim_C2 (resp : Nat → PollResp) (elapsed : Nat → ℚ) (timeout interval : ℚ)
    (hpos : 0 < interval)
    (hstep : ∀ i, elapsed i + interval ≤ elapsed (i + 1))
    (hnone : ∀ i, pollClassify (resp i) = Option.none) :
    ∃ n m : Nat,
      getTaskRun resp elapsed timeout n 0
        = Option.some (.errT "task timeout" (.fromData (resp m).data))
      ∧ (∀ j, j < m → ¬ timeout < elapsed j) ∧ timeout < elapsed m := by
  have hex : ∃ i : Nat, timeout < elapsed i := by
    obtain ⟨n, hn⟩ := exists_nat_gt ((timeout - elapsed 0) / interval)
    refine ⟨n, ?_⟩
    have h1 : timeout - elapsed 0 < n * interval := by
      rw [div_lt_iff₀ hpos] at hn
      linarith
    have h2 := elapsed_lower elapsed interval hstep n
    linarith
  classical
  let m := Nat.find hex
  have hm : timeout < elapsed m := Nat.find_spec hex
  have hmin : ∀ j, j < m → ¬ timeout < elapsed j := fun j hj => Nat.find_min hex hj
  refine ⟨m + 1, m, ?_, hmin, hm⟩
  have := getTaskRun_reach resp elapsed timeout hnone m 0
    (fun j hj1 hj2 => hmin j (by omega)) (by simpa using hm)
  simpa using this

/-- A poll response for a task that is still pending: 200, no error, no
failure reason, empty progress. -/
def pendPoll : PollResp := ⟨200, "", ⟨"", false, ""⟩⟩

/-- Concrete witness for C2: with one poll per time unit and a
three-unit timeout against an always-pending task, the poller stops with
the `task timeout` error. -/
theorem claim_C2_witness :
    (0 : ℚ) < 1
    ∧ ∃ n m : Nat,
      getTaskRun (fun _ => pendPoll) (fun i => (i : ℚ)) 3 n 0
        = Option.some (.errT "task timeout" (.fromData pendPoll.data))
      ∧ (∀ j, j < m → ¬ (3 : ℚ) < (j : ℚ)) ∧ (3 : ℚ) < (m : ℚ) := by
  refine ⟨by norm_num, ?_⟩
  exact claim_C2 (fun _ => pendPoll) (fun i => (i : ℚ)) 3 1
    (by norm_num)
    (fun i => by push_cast; linarith)
    (fun i => rfl)

/-- C3: an error flag or a non-empty failure reason fails the task on
that very poll. For every poll index (the first included) whose 200
response carries `isError` or a non-empty `failureReason`, the poller
returns the error immediately — whatever the progress text contains —
with the failure reason captured verbatim when it is non-empty, and the
fixed `task reported error` text otherwise. -/
theorem claim_C3 (resp : Nat → PollResp) (elapsed : Nat → ℚ) (timeout : ℚ)
    (fuel i : Nat)
    (h200 : (resp i).status = 200)
    (herr : (resp i).data.isError = true ∨ (resp i).data.failureReason ≠ "") :
    getTaskRun resp elapsed timeout (fuel + 1) i
      = Option.some (.errT
          (if (resp i).data.failureReason ≠ "" then (resp i).data.failureReason
            else "task reported error")
          (.fromData (resp i).data)) := by
  have hc : pollClassify (resp i)
      = Option.some (.errT
          (if (resp i).data.failureReason ≠ "" then (resp i).data.failureReason
            else "task reported error")
          (.fromData (resp i).data)) := by
    unfold pollClassify
    rw [if_neg (by simp [h200])]
    rw [if_pos ?hcond]
    case hcond =>
      rcases herr with h | h
      · simp [h]
      · simp [h]
  simp [getTaskRun, hc]

/-- A poll response whose progress text contains completion keywords but
which also carries a failure reason. -/
def failPoll : PollResp := ⟨200, "", ⟨"deletion completed", false, "boom"⟩⟩

/-- Concrete witness for C3: on the very first poll, a response whose
progress says `deletion completed` but whose `failureReason` is `boom`
fails the task with the verbatim text `boom`. -/
theorem claim_C3_witness :
    failPoll.status = 200 ∧ failPoll.data.failureReason ≠ ""
    ∧ getTaskRun (fun _ => failPoll) (fun _ => (0 : ℚ)) 300 1 0
      = Option.some (.errT "boom" (.fromData failPoll.data)) := by
  refine ⟨rfl, by decide, ?_⟩
  have h := claim_C3 (fun _ => failPoll) (fun _ => (0 : ℚ)) 300 0 0 rfl
    (Or.inr (by decide))
  rw [h, if_pos (by decide)]
  rfl

/-! ### Helper lemmas for the per-item golden-tag pre-step -/

theorem processItem_goldenFail (env : Env) (gp : GParams) (r : Row) (t m : String)
    (hid : optTruthy r.imageUuid = true) (hg : r.golden = true) (hgp : gpAll gp = true)
    (hrg : remove_golden (env.rgResp (r.imageUuid.getD "")) = Except.ok (Option.some t))
    (ht : t ≠ "") (htask : env.task t = .errR m) :
    processItem env gp r = Except.ok (.failI ("remove_golden failed: " ++ m)) := by
  unfold processItem
  rw [if_neg (by simp [hid])]
  simp only [hg, hgp, Bool.and_self, if_true, hrg]
  simp [optTruthy, ht, htask]

theorem processItem_goldenRejected (env : Env) (gp : GParams) (r : Row)
    (hid : optTruthy r.imageUuid = true) (hg : r.golden = true) (hgp : gpAll gp = true)
    (hrej : nonSuccessResp (env.rgResp (r.imageUuid.getD "")) = true) :
    processItem env gp r = deletePhase env (r.imageUuid.getD "") := by
  cases hr : env.rgResp (r.imageUuid.getD "") with
  | raised e => rw [hr] at hrej; simp [nonSuccessResp] at hrej
  | resp st body txt =>
    rw [hr] at hrej
    simp only [nonSuccessResp, Bool.not_eq_true', Bool.or_eq_false_iff,
      decide_eq_false_iff_not] at hrej
    have hremove : remove_golden (env.rgResp (r.imageUuid.getD ""))
        = Except.ok Option.none := by
      rw [hr]; simp [remove_golden, hrej.1.1, hrej.1.2]
    unfold processItem
    rw [if_neg (by simp [hid])]
    simp only [hg, hgp, Bool.and_self, if_true, hremove]
    simp [optTruthy]

/-- C4: for a golden candidate with all three golden-tag-removal scope
parameters supplied, when the tag-removal request is acknowledged with a
(truthy) task handle and polling that task errs, the item fails with a
reason beginning `remove_golden failed` and the delete phase is never
reached (the outcome is the same whatever the delete transport would
answer); whereas a tag-removal request rejected outright — a non-success
status, hence no task handle — lets the item proceed directly to the
delete phase. -/
theorem claim_C4 :
    (∀ (env : Env) (gp : GParams) (r : Row) (t m : String),
      optTruthy r.imageUuid = true → r.golden = true → gpAll gp = true →
      remove_golden (env.rgResp (r.imageUuid.getD "")) = Except.ok (Option.some t) →
      t ≠ "" →
      env.task t = .errR m →
      processItem env gp r = Except.ok (.failI ("remove_golden failed: " ++ m))
        ∧ ∀ d : String → DResp,
            processItem ⟨env.rgResp, d, env.task⟩ gp r
              = Except.ok (.failI ("remove_golden failed: " ++ m)))
    ∧ (∀ (env : Env) (gp : GParams) (r : Row),
      optTruthy r.imageUuid = true → r.golden = true → gpAll gp = true →
      nonSuccessResp (env.rgResp (r.imageUuid.getD "")) = true →
      processItem env gp r = deletePhase env (r.imageUuid.getD "")) := by
  constructor
  · intro env gp r t m hid hg hgp hrg ht htask
    exact ⟨processItem_goldenFail env gp r t m hid hg hgp hrg ht htask,
      fun d => processItem_goldenFail ⟨env.rgResp, d, env.task⟩ gp r t m hid hg hgp hrg ht htask⟩
  · intro env gp r hid hg hgp hrej
    exact processItem_goldenRejected env gp r hid hg hgp hrej

/-- A golden candidate row with an id. -/
def rowC4 : Row := ⟨Option.some "uuid-1", Option.some "img", Option.some "1.0",
  Option.some "cat9k", Option.some "bin", true, .vint 0⟩

/-- Golden-removal scope parameters, all supplied. -/
def gpC4 : GParams := ⟨Option.some "-1", Option.some "284389362", Option.some "ALL"⟩

/-- Transport where golden-tag removal is acknowledged with task `tg`
whose poll errs. -/
def envC4 : Env :=
  ⟨fun _ => DResp.resp 202 (Option.some (Option.some "tg")) "",
   fun _ => DResp.resp 204 (Option.some Option.none) "",
   fun _ => .errR "poll says no"⟩

/-- Transport where golden-tag removal is rejected outright with 403. -/
def envC4b : Env :=
  ⟨fun _ => DResp.resp 403 (Option.some Option.none) "forbidden",
   fun _ => DResp.resp 204 (Option.some Option.none) "",
   fun _ => .good⟩

/-- Concrete witness for C4: the golden candidate fails with the
`remove_golden failed:` reason under every delete transport when the
removal task errs, and proceeds to the delete phase when the removal call
is rejected with 403. -/
theorem claim_C4_witness :
    (processItem envC4 gpC4 rowC4 = Except.ok (.failI "remove_golden failed: poll says no")
      ∧ ∀ d : String → DResp,
          processItem ⟨envC4.rgResp, d, envC4.task⟩ gpC4 rowC4
            = Except.ok (.failI "remove_golden failed: poll says no"))
    ∧ processItem envC4b gpC4 rowC4 = deletePhase envC4b "uuid-1" := by
  constructor
  · exact claim_C4.1 envC4 gpC4 rowC4 "tg" "poll says no"
      (by decide) rfl (by decide) rfl (by decide) rfl
  · exact claim_C4.2 envC4b gpC4 rowC4 (by decide) rfl (by decide) (by decide)

/-! ### Raised exceptions versus structured outcomes -/

/-- A transport interaction that raises no exception: the request
returns a response, and when the code decodes its JSON body (status
200/202) the body decodes. -/
def DResp.benign : DResp → Bool
  | .raised _ => false
  | .resp st body _ => if st = 200 || st = 202 then body.isSome else true

theorem tryPaths_noRaise (send : String → DResp)
    (hb : ∀ p, (send p).benign = true) :
    ∀ (paths : List String) (tried : List (String × Nat)) (txt : String),
    ∃ out, tryPaths send paths tried txt = Except.ok out := by
  intro paths
  induction paths with
  | nil => intro tried txt; exact ⟨.failD tried txt, rfl⟩
  | cons p ps ih =>
    intro tried txt
    have hbp := hb p
    cases hsp : send p with
    | raised e => rw [hsp] at hbp; simp [DResp.benign] at hbp
    | resp st body t =>
      rw [hsp] at hbp
      by_cases h2 : (st = 200 || st = 202) = true
      · have : body.isSome = true := by simpa [DResp.benign, h2] using hbp
        obtain ⟨tid, htid⟩ := Option.isSome_iff_exists.mp this
        exact ⟨.okD tid p, by simp [tryPaths, hsp, h2, htid]⟩
      · by_cases h4 : st = 204
        · exact ⟨.okD Option.none p, by simp [tryPaths, hsp, h2, h4]⟩
        · obtain ⟨out, hout⟩ := ih (tried ++ [(p, st)]) t
          exact ⟨out, by simp only [tryPaths, hsp]; rw [if_neg h2, if_neg h4]; exact hout⟩

theorem remove_golden_noRaise (r : DResp) (hb : r.benign = true) :
    ∃ o, remove_golden r = Except.ok o := by
  cases r with
  | raised e => simp [DResp.benign] at hb
  | resp st body t =>
    by_cases h2 : (st = 200 || st = 202) = true
    · have : body.isSome = true := by simpa [DResp.benign, h2] using hb
      obtain ⟨tid, htid⟩ := Option.isSome_iff_exists.mp this
      exact ⟨tid, by simp [remove_golden, h2, htid]⟩
    · exact ⟨Option.none, by simp [remove_golden, h2]⟩

theorem deletePhase_noRaise (env : Env)
    (hd : ∀ p, (env.delResp p).benign = true) (imgId : String) :
    ∃ res, deletePhase env imgId = Except.ok res := by
  obtain ⟨out, hout⟩ := tryPaths_noRaise env.delResp hd (deletePaths imgId) [] ""
  have hdel : delete_image env.delResp imgId = Except.ok out := hout
  cases out with
  | okD tid path =>
    by_cases htid : optTruthy tid = true
    · cases htask : env.task (tid.getD "") with
      | errR m =>
        exact ⟨.failI ("task failed: " ++ m), by
          simp [deletePhase, hdel, htid, htask, Bind.bind, Except.bind, pure, Except.pure]⟩
      | good =>
        exact ⟨.okDel, by simp [deletePhase, hdel, htid, htask, Bind.bind, Except.bind, pure, Except.pure]⟩
    · exact ⟨.okDel, by
        simp only [Bool.not_eq_true] at htid
        simp [deletePhase, hdel, htid, Bind.bind, Except.bind, pure, Except.pure]⟩
  | failD tried lastText =>
    exact ⟨.failI ("delete failed (paths tried " ++ showTried tried ++ "): " ++ lastText),
      by simp [deletePhase, hdel, Bind.bind, Except.bind, pure, Except.pure]⟩

theorem processItem_noRaise (env : Env) (gp : GParams) (r : Row)
    (hd : ∀ p, (env.delResp p).benign = true)
    (hr : ∀ i, (env.rgResp i).benign = true) :
    ∃ res, processItem env gp r = Except.ok res := by
  by_cases hid : optTruthy r.imageUuid = false
  · exact ⟨.failI "missing imageUuid", by simp [processItem, hid]⟩
  · obtain ⟨res0, hres0⟩ := deletePhase_noRaise env hd (r.imageUuid.getD "")
    by_cases hgold : (r.golden && gpAll gp) = true
    · obtain ⟨o, ho⟩ := remove_golden_noRaise (env.rgResp (r.imageUuid.getD ""))
        (hr (r.imageUuid.getD ""))
      by_cases hto : optTruthy o = true
      · cases htask : env.task (o.getD "") with
        | errR m =>
          exact ⟨.failI ("remove_golden failed: " ++ m), by
            simp [processItem, hid, hgold, ho, hto, htask]⟩
        | good =>
          exact ⟨res0, by simp [processItem, hid, hgold, ho, hto, htask, hres0]⟩
      · exact ⟨res0, by
          simp only [Bool.not_eq_true] at hto
          simp [processItem, hid, hgold, ho, hto, hres0]⟩
    · exact ⟨res0, by simp [processItem, hid, hgold, hres0]⟩

theorem runLoop_noRaise (env : Env) (gp : GParams)
    (hd : ∀ p, (env.delResp p).benign = true)
    (hr : ∀ i, (env.rgResp i).benign = true) :
    ∀ rows : List Row, ∃ out, runLoop env gp rows = Except.ok out
      ∧ out.attempted = rows := by
  intro rows
  induction rows with
  | nil => exact ⟨⟨[], [], []⟩, rfl, rfl⟩
  | cons r rest ih =>
    obtain ⟨res, hres⟩ := processItem_noRaise env gp r hd hr
    obtain ⟨tail, htail, hatt⟩ := ih
    cases res with
    | okDel =>
      exact ⟨⟨r :: tail.deleted, tail.failures, r :: tail.attempted⟩,
        by simp [runLoop, hres, htail], by simp [hatt]⟩
    | failI e =>
      exact ⟨⟨tail.deleted, (r, e) :: tail.failures, r :: tail.attempted⟩,
        by simp [runLoop, hres, htail], by simp [hatt]⟩

/-- C5 counterexample: the claim that transport errors below the
Deletion Protocol never reach the orchestrator boundary as raw
exceptions is false. With a transport whose delete call raises
`ConnectionError` for a single non-golden candidate with an id, the
whole deletion loop evaluates to that raised exception: nothing in
`delete_image` or in the loop catches it, so it is not converted into a
structured failure outcome and processing stops. -/
theorem claim_C5_counterexample :
    runDeletions
      ⟨fun _ => DResp.resp 204 (Option.some Option.none) "",
       fun _ => DResp.raised "ConnectionError",
       fun _ => .good⟩
      ⟨Option.none, Option.none, Option.none⟩
      [⟨Option.some "uuid-2", Option.none, Option.none, Option.none, Option.none,
        false, .vint 0⟩] 0
      = Except.error "ConnectionError" := by
  rfl

/-- C5 amended: when every transport call actually returns an HTTP
response (no raised exception, and a decodable body wherever the code
decodes one), every item-local failure — golden-tag removal failure,
exhaustion of all delete paths, task poll failure or timeout — is
converted into a structured failure outcome and the loop continues
through every candidate up to the limit; the run never ends in a raised
exception. Raised transport exceptions themselves, however, propagate
uncaught (see the counterexample). -/
theorem claim_C5 (env : Env) (gp : GParams) (table : List Row) (limitArg : Int)
    (hd : ∀ p, (env.delResp p).benign = true)
    (hr : ∀ i, (env.rgResp i).benign = true) :
    ∃ out, runDeletions env gp table limitArg = Except.ok out
      ∧ out.attempted = table.take (pyLimit limitArg table.length) := by
  obtain ⟨out, hout, hatt⟩ := runLoop_noRaise env gp hd hr
    (table.take (pyLimit limitArg table.length))
  exact ⟨out, hout, hatt⟩

/-- A row with id `a1`. -/
def rowA : Row := ⟨Option.some "a1", Option.none, Option.none, Option.none,
  Option.none, false, .vint 0⟩

/-- A row with id `a2`, golden. -/
def rowB : Row := ⟨Option.some "a2", Option.none, Option.none, Option.none,
  Option.none, true, .vint 0⟩

/-- A row with id `a3`. -/
def rowC : Row := ⟨Option.some "a3", Option.none, Option.none, Option.none,
  Option.none, false, .vint 0⟩

/-- A transport that answers every call with 204 and errs every poll:
benign (nothing raises), with all delete paths succeeding. -/
def env204 : Env :=
  ⟨fun _ => DResp.resp 204 (Option.some Option.none) "",
   fun _ => DResp.resp 204 (Option.some Option.none) "",
   fun _ => .good⟩

/-- Concrete witness for C5 (amended): the benign 204 transport runs the
three-candidate table to completion with no raised exception. -/
theorem claim_C5_witness :
    ∃ out, runDeletions env204 ⟨Option.none, Option.none, Option.none⟩
        [rowA, rowB, rowC] 0 = Except.ok out
      ∧ out.attempted
          = [rowA, rowB, rowC].take (pyLimit 0 [rowA, rowB, rowC].length) := by
  exact claim_C5 env204 ⟨Option.none, Option.none, Option.none⟩ [rowA, rowB, rowC] 0
    (fun p => rfl) (fun i => rfl)

/-! ### The result limit -/

theorem runLoop_ok_inv (env : Env) (gp : GParams) :
    ∀ (rows : List Row) (out : RunOut), runLoop env gp rows = Except.ok out →
    out.attempted = rows
      ∧ (∀ r ∈ out.deleted, r ∈ rows)
      ∧ (∀ p ∈ out.failures, p.1 ∈ rows) := by
  intro rows
  induction rows with
  | nil =>
    intro out h
    simp only [runLoop] at h
    cases h
    exact ⟨rfl, by simp, by simp⟩
  | cons r rest ih =>
    intro out h
    simp only [runLoop] at h
    cases hpi : processItem env gp r with
    | error e => rw [hpi] at h; cases h
    | ok res =>
      rw [hpi] at h
      cases hrl : runLoop env gp rest with
      | error e => rw [hrl] at h; cases h
      | ok tail =>
        rw [hrl] at h
        obtain ⟨hatt, hdel, hfail⟩ := ih tail hrl
        cases res with
        | okDel =>
          simp only at h
          cases h
          refine ⟨by simp [hatt], ?_, ?_⟩
          · intro x hx
            rcases List.mem_cons.mp hx with hx | hx
            · simp [hx]
            · simp [hdel x hx]
          · intro p hp
            simp [hfail p hp]
        | failI e =>
          simp only at h
          cases h
          refine ⟨by simp [hatt], ?_, ?_⟩
          · intro x hx
            simp [hdel x hx]
          · intro p hp
            rcases List.mem_cons.mp hp with hp | hp
            · simp [hp]
            · simp [hfail p hp]

/-- C6: the deletion loop acts on exactly `min(matchCount, limit)`
candidates when a positive limit is configured and on every candidate
when the limit is 0 (unbounded); every row of the final `deleted` and
`failed` lists comes from that iterated prefix, so candidates beyond the
limit appear in neither list. -/
theorem claim_C6 (env : Env) (gp : GParams) (table : List Row) (limitArg : Int)
    (out : RunOut) (h : runDeletions env gp table limitArg = Except.ok out) :
    out.attempted = table.take (pyLimit limitArg table.length)
      ∧ (0 < limitArg → out.attempted.length = min table.length limitArg.toNat)
      ∧ (limitArg = 0 → out.attempted = table)
      ∧ (∀ r ∈ out.deleted, r ∈ table.take (pyLimit limitArg table.length))
      ∧ (∀ p ∈ out.failures, p.1 ∈ table.take (pyLimit limitArg table.length)) := by
  obtain ⟨hatt, hdel, hfail⟩ := runLoop_ok_inv env gp
    (table.take (pyLimit limitArg table.length)) out h
  refine ⟨hatt, ?_, ?_, hdel, hfail⟩
  · intro hpos
    rw [hatt, List.length_take, pyLimit, if_pos hpos]
    exact Nat.min_comm _ _
  · intro h0
    rw [hatt, pyLimit, h0]
    simp

/-- Concrete witness for C6: a three-row table with limit 2 under the
benign 204 transport iterates exactly the first two rows, and
`min(3, 2) = 2` rows are acted upon. -/
theorem claim_C6_witness :
    (0 : Int) < 2
    ∧ (RunOut.mk [rowA, rowB] [] [rowA, rowB]).attempted
        = [rowA, rowB, rowC].take (pyLimit 2 [rowA, rowB, rowC].length)
    ∧ (RunOut.mk [rowA, rowB] [] [rowA, rowB]).attempted.length
        = min [rowA, rowB, rowC].length (Int.toNat 2) := by
  refine ⟨by norm_num, ?_, ?_⟩
  · exact (claim_C6 env204 ⟨Option.none, Option.none, Option.none⟩
      [rowA, rowB, rowC] 2 (RunOut.mk [rowA, rowB] [] [rowA, rowB]) rfl).1
  · exact (claim_C6 env204 ⟨Option.none, Option.none, Option.none⟩
      [rowA, rowB, rowC] 2 (RunOut.mk [rowA, rowB] [] [rowA, rowB]) rfl).2.1 (by norm_num)

/-! ### Filter engine properties -/

theorem all_of_perm {α : Type} (p : α → Bool) {l₁ l₂ : List α} (h : l₁.Perm l₂) :
    l₁.all p = l₂.all p := by
  cases h1 : l₁.all p <;> cases h2 : l₂.all p <;> try rfl
  · exfalso
    have hall : ∀ x ∈ l₁, p x = true :=
      fun x hx => (List.all_eq_true.mp h2) x (h.mem_iff.mp hx)
    rw [List.all_eq_true.mpr hall] at h1
    cases h1
  · exfalso
    have hall : ∀ x ∈ l₂, p x = true :=
      fun x hx => (List.all_eq_true.mp h1) x (h.mem_iff.mpr hx)
    rw [List.all_eq_true.mpr hall] at h2
    cases h2

/-- C7: the age predicate is permissive on unparseable timestamps. When
the record's creation value fails to parse (absent, falsy, or rejected by
both the numeric-epoch and the ISO parser), the age test never rejects
it, for any configured day threshold — indeed the whole match decision is
the same as with no age filter at all. Conversely, whenever the age test
does reject a record, that record has a parseable creation timestamp
lying within the configured number of days of now. -/
theorem claim_C7 (args : FilterArgs) (now : ℚ) (utc : ℚ → Option ℚ)
    (iso : String → Option ℚ) (img : Img)
    (hparse : parseCreated utc iso (createdValOf img) = Option.none) :
    ageReject args now utc iso img = false
    ∧ matchImage args now utc iso img
        = matchImage { args with older_than_days := Option.none } now utc iso img
    ∧ ∀ (args' : FilterArgs) (img' : Img),
        ageReject args' now utc iso img' = true →
        ∃ (t : ℚ) (d : Int), parseCreated utc iso (createdValOf img') = Option.some t
          ∧ args'.older_than_days = Option.some d ∧ d ≠ 0
          ∧ now - t < (d : ℚ) * 86400 := by
  have h1 : ageReject args now utc iso img = false := by
    unfold ageReject
    cases args.older_than_days with
    | none => rfl
    | some d =>
      by_cases hd : d ≠ 0
      · simp [hd, hparse]
      · simp [hd]
  refine ⟨h1, ?_, ?_⟩
  · have h2 : ageReject { args with older_than_days := Option.none } now utc iso img
        = false := by simp [ageReject]
    unfold matchImage
    rw [h1, h2]
    rfl
  · intro args' img' hrej
    unfold ageReject at hrej
    cases hod : args'.older_than_days with
    | none => rw [hod] at hrej; cases hrej
    | some d =>
      rw [hod] at hrej
      by_cases hd : d = 0
      · simp [hd] at hrej
      · cases hp : parseCreated utc iso (createdValOf img') with
        | none => simp [hd, hp] at hrej
        | some t =>
          simp only [hd, hp, ne_eq, not_false_eq_true, if_true, ite_true,
            decide_eq_true_eq] at hrej
          exact ⟨t, d, rfl, rfl, hd, hrej⟩

/-- An image whose creation value is present but parses under neither
oracle (the string `not-a-date` with the reject-everything ISO oracle). -/
def imgBadDate : Img :=
  { family := Option.some "cat9k", imageUuid := Option.some "u7",
    createdTime := .vstr "not-a-date" }

/-- The identity epoch oracle (every epoch is representable). -/
def utc0 : ℚ → Option ℚ := fun q => Option.some q

/-- An ISO oracle that parses nothing. -/
def iso0 : String → Option ℚ := fun _ => Option.none

/-- Concrete witness for C7: with a 30-day age filter, the record whose
`createdTime` parses under neither parser is not rejected by the age test
and matches exactly as it would with no age filter. -/
theorem claim_C7_witness :
    parseCreated utc0 iso0 (createdValOf imgBadDate) = Option.none
    ∧ ageReject { older_than_days := Option.some 30 } 1000 utc0 iso0 imgBadDate = false
    ∧ matchImage { older_than_days := Option.some 30 } 1000 utc0 iso0 imgBadDate
        = matchImage { older_than_days := Option.none } 1000 utc0 iso0 imgBadDate := by
  refine ⟨rfl, ?_, ?_⟩
  · exact (claim_C7 { older_than_days := Option.some 30 } 1000 utc0 iso0 imgBadDate rfl).1
  · exact (claim_C7 { older_than_days := Option.some 30 } 1000 utc0 iso0 imgBadDate rfl).2.1

/-- C8: the match decision is the conjunction of the nine independent
per-field predicates, in any order: every permutation of the predicate
list evaluates to the same decision as `_match` itself; and a record
whose (case-insensitively lowered) family string does not contain the
configured family substring is rejected no matter how the remaining
predicates are configured or ordered. -/
theorem claim_C8 :
    (∀ (args : FilterArgs) (now : ℚ) (utc : ℚ → Option ℚ) (iso : String → Option ℚ)
        (img : Img) (l : List (Img → Bool)),
      l.Perm (predList args now utc iso) →
      l.all (fun p => p img) = matchImage args now utc iso img)
    ∧ (∀ (args : FilterArgs) (now : ℚ) (utc : ℚ → Option ℚ) (iso : String → Option ℚ)
        (img : Img),
      optTruthy args.family = true →
      pyIn (strLower (args.family.getD "")) (famStr img) = false →
      matchImage args now utc iso img = false) := by
  constructor
  · intro args now utc iso img l hperm
    rw [all_of_perm (fun p => p img) hperm, matchImage_eq_all]
  · intro args now utc iso img hfam hnotin
    have hrej : famReject args img = true := by
      simp [famReject, hfam, hnotin]
    simp [matchImage, hrej]

/-- A filter on family `cat9k` with every other predicate configured as
well. -/
def argsFull : FilterArgs :=
  { family := Option.some "cat9k", name_contains := Option.some "img",
    nameRegex := Option.some (fun _ => true), version := Option.none,
    versionRegex := Option.some (fun _ => true), itype := Option.some "bin",
    golden := Option.some false, older_than_days := Option.some 30,
    unused_only := true }

/-- A record whose family string does not contain `cat9k`. -/
def imgOtherFam : Img :=
  { family := Option.some "cat3k", name := Option.some "img-one.bin",
    imageType := Option.some "bin", imageUuid := Option.some "u8" }

/-- Concrete witness for C8: the reversed predicate list decides exactly
as `_match` on a concrete record, and the fully-configured filter rejects
the record whose family lacks the `cat9k` substring. -/
theorem claim_C8_witness :
    (predList argsFull 1000 utc0 iso0).reverse.all (fun p => p imgOtherFam)
        = matchImage argsFull 1000 utc0 iso0 imgOtherFam
    ∧ (optTruthy argsFull.family = true
        ∧ pyIn (strLower (argsFull.family.getD "")) (famStr imgOtherFam) = false
        ∧ matchImage argsFull 1000 utc0 iso0 imgOtherFam = false) := by
  constructor
  · exact claim_C8.1 argsFull 1000 utc0 iso0 imgOtherFam _
      (List.reverse_perm (predList argsFull 1000 utc0 iso0))
  · exact ⟨by decide, by decide,
      claim_C8.2 argsFull 1000 utc0 iso0 imgOtherFam (by decide) (by decide)⟩

/-- C10: a record carrying none of the three golden-flag aliases, or
only falsy values for them, is not golden: its combined golden flag is
false (in the filter and in the presentation row), it is rejected by a
golden filter set to `true` under any other configuration, it matches a
filter consisting only of `golden=false`, and its deletion processing
never consults the golden-tag-removal transport. -/
theorem claim_C10 (img : Img)
    (h1 : img.isTaggedGolden.truthy = false)
    (h2 : img.isGolden.truthy = false)
    (h3 : img.golden.truthy = false) :
    isGoldenOf img = false
    ∧ (img_row img).golden = false
    ∧ (∀ (args : FilterArgs) (now : ℚ) (utc : ℚ → Option ℚ) (iso : String → Option ℚ),
        args.golden = Option.some true → matchImage args now utc iso img = false)
    ∧ (∀ (now : ℚ) (utc : ℚ → Option ℚ) (iso : String → Option ℚ),
        matchImage { golden := Option.some false } now utc iso img = true)
    ∧ (∀ (env : Env) (gp : GParams) (rg : String → DResp),
        processItem ⟨rg, env.delResp, env.task⟩ gp (img_row img)
          = processItem env gp (img_row img)) := by
  have hg : isGoldenOf img = false := by simp [isGoldenOf, h1, h2, h3]
  have hrow : (img_row img).golden = false := hg
  refine ⟨hg, hrow, ?_, ?_, ?_⟩
  · intro args now utc iso hgt
    have hrej : goldenReject args img = true := by
      simp [goldenReject, hgt, hg]
    rw [matchImage_eq_all]
    rw [List.all_eq_false]
    refine ⟨fun i => !goldenReject args i, by simp [predList], by simp [hrej]⟩
  · intro now utc iso
    simp [matchImage, famReject, nameSubReject, nameRegexReject, verReject,
      verRegexReject, typeReject, goldenReject, ageReject, usedReject,
      optTruthy, hg]
  · intro env gp rg
    unfold processItem
    by_cases hid : optTruthy (img_row img).imageUuid = false
    · rw [if_pos hid, if_pos hid]
    · rw [if_neg hid, if_neg hid]
      simp only [hrow, Bool.false_and, Bool.false_eq_true, if_false]
      rfl

/-- A record with no golden alias at all and one with only falsy alias
values. -/
def imgNotGolden : Img :=
  { family := Option.some "cat9k", imageUuid := Option.some "u9",
    isGolden := .vbool false, golden := .vint 0 }

/-- Concrete witness for C10: the record with only falsy golden aliases
has a false golden flag, is rejected by `golden=true`, matches
`golden=false`, and its processing ignores the golden-removal
transport. -/
theorem claim_C10_witness :
    isGoldenOf imgNotGolden = false
    ∧ matchImage { golden := Option.some true } 0 utc0 iso0 imgNotGolden = false
    ∧ matchImage { golden := Option.some false } 0 utc0 iso0 imgNotGolden = true
    ∧ processItem ⟨fun _ => DResp.raised "never called", env204.delResp, env204.task⟩
        ⟨Option.none, Option.none, Option.none⟩ (img_row imgNotGolden)
        = processItem env204 ⟨Option.none, Option.none, Option.none⟩
            (img_row imgNotGolden) := by
  refine ⟨(claim_C10 imgNotGolden rfl rfl rfl).1, ?_, ?_, ?_⟩
  · exact (claim_C10 imgNotGolden rfl rfl rfl).2.2.1 _ 0 utc0 iso0 rfl
  · exact (claim_C10 imgNotGolden rfl rfl rfl).2.2.2.1 0 utc0 iso0
  · exact (claim_C10 imgNotGolden rfl rfl rfl).2.2.2.2 env204
      ⟨Option.none, Option.none, Option.none⟩ (fun _ => DResp.raised "never called")

/-! ### Selectability and missing ids -/

/-- An inventory record with no id under any recognized alias. -/
def imgNoId : Img := { family := Option.some "cat9k" }

/-- C9 counterexample: the claim that an entry lacking a non-empty id is
unselectable is false. The record `imgNoId` carries no id alias, yet it
passes an empty filter and appears in the presented candidate table
(with a falsy `imageUuid`). -/
theorem claim_C9_counterexample :
    mkTable {} 0 utc0 iso0 [imgNoId] = [img_row imgNoId]
    ∧ optTruthy (img_row imgNoId).imageUuid = false := by
  exact ⟨rfl, rfl⟩

/-- C9 amended: an entry lacking a non-empty id under every recognized
alias can still be selected into the candidate table, but no deletion
action is ever taken for it: for every transport environment and scope
parameters, the loop body immediately records the structured failure
`missing imageUuid` (issuing no call — the outcome does not depend on the
environment at all). -/
theorem claim_C9 (env : Env) (gp : GParams) (r : Row)
    (hid : optTruthy r.imageUuid = false) :
    processItem env gp r = Except.ok (.failI "missing imageUuid") := by
  simp [processItem, hid]

/-- Concrete witness for C9 (amended): the no-id candidate row is
recorded as `missing imageUuid` even under a transport that would raise
on any call. -/
theorem claim_C9_witness :
    optTruthy (img_row imgNoId).imageUuid = false
    ∧ processItem
        ⟨fun _ => DResp.raised "never", fun _ => DResp.raised "never", fun _ => .good⟩
        ⟨Option.none, Option.none, Option.none⟩ (img_row imgNoId)
        = Except.ok (.failI "missing imageUuid") := by
  exact ⟨rfl, claim_C9
    ⟨fun _ => DResp.raised "never", fun _ => DResp.raised "never", fun _ => .good⟩
    ⟨Option.none, Option.none, Option.none⟩ (img_row imgNoId) rfl⟩

end SwimDel
